import Mathlib

/-!
Verification of the FinCLI budget allocation and report-versioning subsystem.

The development shallowly embeds the TypeScript sources:
  - `budgetCalculator.ts` (class BudgetCalculator) — allocation arithmetic;
  - `configService.ts` (class ConfigService) — allocation-percentage config;
  - `reportService.ts` (class ReportService) — dual-format persistence,
    version resolution and the legacy text-report reconstruction.

JavaScript numbers are modelled as `Int`; `Math.floor(x * (p / 100))` is
modelled as exact floor division `Int.fdiv (x * p) 100` (exact for the
percentage values and magnitudes the program manipulates).  Text is
modelled as `String` / `List Char`; the file system as an association
list from path strings to file contents, newest entry first (matching
`fs.writeFile` overwrite semantics).
-/

namespace FinCLI

/-! ### Decimal text utilities (model of JS template interpolation and parseInt) -/

/-- Value of a decimal digit character. -/
def digitVal (c : Char) : Nat := c.toNat - '0'.toNat

/-- Value of a list of decimal digit characters (model of `parseInt(s, 10)`
on an all-digit string). -/
def decVal (ds : List Char) : Nat := ds.foldl (fun a c => 10 * a + digitVal c) 0

/-- Fuel-driven decimal rendering: digits of `n` provided `n < fuel`. -/
def natToDecAux : Nat → Nat → List Char
  | 0, _ => []
  | Nat.succ fuel, n =>
    if n < 10 then [Nat.digitChar n]
    else natToDecAux fuel (n / 10) ++ [Nat.digitChar (n % 10)]

/-- Decimal rendering of a natural number (model of JS `${n}`). -/
def natToDec (n : Nat) : List Char := natToDecAux (n + 1) n

theorem decVal_append (xs ys : List Char) :
    decVal (xs ++ ys) = ys.foldl (fun a c => 10 * a + digitVal c) (decVal xs) := by
  simp [decVal, List.foldl_append]

theorem digitVal_digitChar : ∀ n < 10, digitVal (Nat.digitChar n) = n := by decide

theorem decVal_natToDecAux : ∀ (fuel n : Nat), n < fuel → decVal (natToDecAux fuel n) = n := by
  intro fuel
  induction fuel with
  | zero => intro n h; omega
  | succ fuel ih =>
    intro n h
    by_cases h10 : n < 10
    · simp [natToDecAux, h10, decVal, digitVal_digitChar n h10]
    · have hn : 0 < n := by omega
      have hdivlt : n / 10 < n := Nat.div_lt_self hn (by omega)
      have hdivfuel : n / 10 < fuel := by omega
      simp only [natToDecAux, if_neg h10]
      rw [decVal_append, ih (n / 10) hdivfuel]
      simp [digitVal_digitChar (n % 10) (Nat.mod_lt n (by omega))]
      omega

theorem decVal_natToDec (n : Nat) : decVal (natToDec n) = n :=
  decVal_natToDecAux (n + 1) n (Nat.lt_succ_self n)

theorem natToDec_injective : Function.Injective natToDec := by
  intro a b h
  have := decVal_natToDec a
  rw [h, decVal_natToDec] at this
  omega

/-! ### Generic text scanning helpers -/

/-- Drops `pat` from the start of `s`, or `none` when `s` does not start
with `pat` (literal character-by-character match). -/
def dropStart? : List Char → List Char → Option (List Char)
  | [], s => some s
  | _ :: _, [] => none
  | p :: ps, c :: cs => if p = c then dropStart? ps cs else none

/-- Literal substring test (model of JS `String.prototype.includes`). -/
def containsSeq (pat : List Char) : List Char → Bool
  | [] => pat.isEmpty
  | c :: cs => (dropStart? pat (c :: cs)).isSome || containsSeq pat cs

/-- Whitespace as recognized by JS `trim` / `\s` (ASCII portion). -/
def isSpaceChar (c : Char) : Bool := c = ' ' || c = '\t' || c = '\r' || c = '\n'

/-- Model of JS `String.prototype.trim` on a single line. -/
def trimChars (s : List Char) : List Char :=
  ((s.dropWhile isSpaceChar).reverse.dropWhile isSpaceChar).reverse

/-- Splits on `\r?\n` (model of `content.split(/\r?\n/)`). -/
def splitLines : List Char → List (List Char)
  | [] => [[]]
  | '\r' :: '\n' :: rest => [] :: splitLines rest
  | '\n' :: rest => [] :: splitLines rest
  | c :: rest =>
    match splitLines rest with
    | [] => [[c]]
    | h :: t => (c :: h) :: t

/-- Splits on the literal separator " – " (space, en dash, space), the
model of `line.split(" – ")` in the text-report parser. -/
def splitDash : List Char → List (List Char)
  | [] => [[]]
  | ' ' :: '–' :: ' ' :: rest => [] :: splitDash rest
  | c :: rest =>
    match splitDash rest with
    | [] => [[c]]
    | h :: t => (c :: h) :: t

/-! ### Data model (`types.ts`) -/

/-- Expense with amount (interface `ExpenseWithAmount` in `types.ts`). -/
structure ExpenseWithAmount where
  name : String
  priority : Int
  tags : List String
  amount : Int
  deriving DecidableEq, Repr

/-- Budget allocation breakdown (interface `BudgetAllocation`). -/
structure BudgetAllocation where
  investments : Int
  savings : Int
  dailyExpenses : Int
  dailyExpensesRemaining : Int
  deriving DecidableEq, Repr

/-- Monthly accounting record (interface `MonthlyAccounting`). -/
structure MonthlyAccounting where
  filename : String
  totalBudget : Int
  expenses : List ExpenseWithAmount
  allocation : BudgetAllocation
  deriving DecidableEq, Repr

/-- Budget allocation percentages (interface `BudgetAllocationConfig`
in `configService.ts`). -/
structure BudgetAllocationConfig where
  investments : Int
  savings : Int
  dailyExpenses : Int
  deriving DecidableEq, Repr

/-- Application configuration (interface `AppConfig` in `configService.ts`). -/
structure AppConfig where
  budgetAllocation : BudgetAllocationConfig
  version : String
  description : String
  deriving DecidableEq, Repr

/-! ### BudgetCalculator (`budgetCalculator.ts`)

The configurable variant of `BudgetCalculator.calculateAllocation`: the
`allocationConfig` parameter is optional in the source
(`allocationConfig?: BudgetAllocationConfig`) and defaults to
`{investments: 30, savings: 20, dailyExpenses: 50}` when omitted; the
superseded pre-configuration variant of the class computes exactly the
same result as the `none` case here (`Math.floor(r * 0.3)` etc.). -/

namespace BudgetCalculator

/-- Embedding of `BudgetCalculator.calculateAllocation`.  The source's
`reduce((sum, e) => sum + e.amount, 0)` is a left fold; `Math.floor` of
`remaining * (pct / 100)` is floor division of `remaining * pct` by 100. -/
def calculateAllocation (totalBudget : Int) (expenses : List ExpenseWithAmount)
    (allocationConfig : Option BudgetAllocationConfig) : BudgetAllocation :=
  let config := allocationConfig.getD ⟨30, 20, 50⟩
  let criticalExpenses := expenses.filter (fun e => e.priority ≤ 2)
  let criticalTotal := criticalExpenses.foldl (fun sum e => sum + e.amount) 0
  let remainingAfterCritical := totalBudget - criticalTotal
  let investments := Int.fdiv (remainingAfterCritical * config.investments) 100
  let savings := Int.fdiv (remainingAfterCritical * config.savings) 100
  let dailyExpenses := Int.fdiv (remainingAfterCritical * config.dailyExpenses) 100
  let discretionaryExpenses := expenses.filter (fun e => e.priority ≥ 3)
  let discretionaryTotal := discretionaryExpenses.foldl (fun sum e => sum + e.amount) 0
  let dailyExpensesRemaining := dailyExpenses - discretionaryTotal
  { investments := investments, savings := savings,
    dailyExpenses := dailyExpenses, dailyExpensesRemaining := dailyExpensesRemaining }

end BudgetCalculator

/-- Sum of the amounts of the critical (priority ≤ 2) expenses. -/
def criticalSum (expenses : List ExpenseWithAmount) : Int :=
  ((expenses.filter (fun e => e.priority ≤ 2)).map (fun e => e.amount)).sum

/-- Sum of the amounts of the discretionary (priority ≥ 3) expenses. -/
def discretionarySum (expenses : List ExpenseWithAmount) : Int :=
  ((expenses.filter (fun e => e.priority ≥ 3)).map (fun e => e.amount)).sum

theorem foldl_amount_eq_sum (l : List ExpenseWithAmount) (a : Int) :
    l.foldl (fun sum e => sum + e.amount) a = a + (l.map (fun e => e.amount)).sum := by
  induction l generalizing a with
  | nil => simp
  | cons x xs ih => simp [List.foldl_cons, ih, add_assoc]

/-- C1 (counterexample): the claim says the engine "receives the config
explicitly and never hardcodes percentages", yet `calculateAllocation`
accepts an omitted config (`none`, as at every call site in `cli.ts`)
and then produces the 30/20/50 split from its own hardcoded default:
with total budget 1000 and no expenses it returns investments 300,
savings 200, dailyExpenses 500 — identical to an explicit
`{30, 20, 50}` config. -/
theorem C1_counterexample :
    BudgetCalculator.calculateAllocation 1000 [] none =
      { investments := 300, savings := 200, dailyExpenses := 500,
        dailyExpensesRemaining := 500 } ∧
    BudgetCalculator.calculateAllocation 1000 [] none =
      BudgetCalculator.calculateAllocation 1000 [] (some ⟨30, 20, 50⟩) := by
  constructor <;> decide

/-- C1 (amended): whenever a config is actually supplied, the allocation
computation uses the config's percentages: with
`remaining = totalBudget - criticalSum`, it returns
`investments = floor(remaining * investmentsPct / 100)`,
`savings = floor(remaining * savingsPct / 100)`,
`dailyExpenses = floor(remaining * dailyPct / 100)` and
`dailyExpensesRemaining = dailyExpenses - discretionarySum`; however the
config parameter is optional and when omitted the engine falls back to
its hardcoded default percentages {30, 20, 50}. -/
theorem C1_config_formula (totalBudget : Int) (expenses : List ExpenseWithAmount)
    (cfg : BudgetAllocationConfig) :
    BudgetCalculator.calculateAllocation totalBudget expenses (some cfg) =
      { investments := Int.fdiv ((totalBudget - criticalSum expenses) * cfg.investments) 100,
        savings := Int.fdiv ((totalBudget - criticalSum expenses) * cfg.savings) 100,
        dailyExpenses := Int.fdiv ((totalBudget - criticalSum expenses) * cfg.dailyExpenses) 100,
        dailyExpensesRemaining :=
          Int.fdiv ((totalBudget - criticalSum expenses) * cfg.dailyExpenses) 100 -
            discretionarySum expenses } := by
  simp [BudgetCalculator.calculateAllocation, criticalSum, discretionarySum,
    foldl_amount_eq_sum]

/-- Expense list of the documented end-to-end scenario (README example):
six priority-1 critical expenses totalling 2,080,000 and two priority-5
discretionary expenses totalling 300,000. -/
def scenarioExpenses : List ExpenseWithAmount :=
  [⟨"house rent", 1, [], 1000000⟩,
   ⟨"loan installment", 1, [], 500000⟩,
   ⟨"house charge", 1, [], 200000⟩,
   ⟨"mobile rent", 1, [], 50000⟩,
   ⟨"internet fee", 1, [], 30000⟩,
   ⟨"household expenses", 1, [], 300000⟩,
   ⟨"gpt", 5, [], 100000⟩,
   ⟨"New Gadget", 5, [], 200000⟩]

/-- C4: on the documented scenario (budget 5,000,000, critical total
2,080,000, discretionary total 300,000, default config {30, 20, 50}) the
allocation computation returns investments 876,000, savings 584,000,
dailyExpenses 1,460,000 and dailyExpensesRemaining 1,160,000. -/
theorem C4_scenario :
    BudgetCalculator.calculateAllocation 5000000 scenarioExpenses (some ⟨30, 20, 50⟩) =
      { investments := 876000, savings := 584000, dailyExpenses := 1460000,
        dailyExpensesRemaining := 1160000 } := by
  decide

/-- C9: whenever the remaining budget after critical expenses is
non-negative, the three floor-rounded categories sum to at most
`remaining + 2` (they in fact never exceed `remaining`, since the
default percentages sum to 100). -/
theorem C9_rounding_bound (totalBudget : Int) (expenses : List ExpenseWithAmount)
    (h : 0 ≤ totalBudget - criticalSum expenses) :
    (BudgetCalculator.calculateAllocation totalBudget expenses none).investments +
      (BudgetCalculator.calculateAllocation totalBudget expenses none).savings +
      (BudgetCalculator.calculateAllocation totalBudget expenses none).dailyExpenses ≤
      (totalBudget - criticalSum expenses) + 2 := by
  have hfold := foldl_amount_eq_sum (expenses.filter (fun e => e.priority ≤ 2)) 0
  simp only [BudgetCalculator.calculateAllocation, Option.getD]
  rw [Int.fdiv_eq_ediv _ (by norm_num), Int.fdiv_eq_ediv _ (by norm_num),
    Int.fdiv_eq_ediv _ (by norm_num)]
  simp only [criticalSum] at h ⊢
  rw [hfold] at *
  omega

/-- C9 (witness): the bound instantiated at budget 100 with no expenses. -/
theorem C9_rounding_bound_witness :
    (BudgetCalculator.calculateAllocation 100 [] none).investments +
      (BudgetCalculator.calculateAllocation 100 [] none).savings +
      (BudgetCalculator.calculateAllocation 100 [] none).dailyExpenses ≤
      (100 - criticalSum []) + 2 := by
  have := C9_rounding_bound 100 [] (by decide)
  simpa using this

/-! ### ConfigService (`configService.ts`)

The state of `./config.json` as seen by `loadConfig`: the read may fail
(file absent or unreadable), the parse may fail or yield a malformed
object (both surface as the caught exception branch), or it yields an
`AppConfig` value. -/

/-- Possible states of the persisted configuration store. -/
inductive ConfigFile where
  | absent
  | corrupt
  | content (c : AppConfig)
  deriving DecidableEq, Repr

namespace ConfigService

/-- Embedding of `ConfigService.getDefaultConfig`. -/
def getDefaultConfig : AppConfig :=
  { budgetAllocation := { investments := 30, savings := 20, dailyExpenses := 50 },
    version := "1.0.0",
    description := "Budget allocation percentages for FinCLI" }

/-- Embedding of `ConfigService.loadConfig`: a read/parse failure and a
percentage sum other than 100 both yield the default configuration with a
console warning (the function always returns a configuration and never
throws — the substitution is recoverable, not fatal). -/
def loadConfig : ConfigFile → AppConfig
  | .absent => getDefaultConfig
  | .corrupt => getDefaultConfig
  | .content c =>
    if c.budgetAllocation.investments + c.budgetAllocation.savings +
        c.budgetAllocation.dailyExpenses ≠ 100 then
      getDefaultConfig
    else
      c

/-- Embedding of `ConfigService.validateAllocation`. -/
def validateAllocation (allocation : BudgetAllocationConfig) : Bool :=
  (allocation.investments + allocation.savings + allocation.dailyExpenses == 100) &&
    decide (0 ≤ allocation.investments) &&
    decide (0 ≤ allocation.savings) &&
    decide (0 ≤ allocation.dailyExpenses)

end ConfigService

/-- C7: `loadConfig` returns the default config {30, 20, 50} whenever the
store is absent, corrupt, or the stored percentages do not sum to exactly
100; the substitution is total (no error is raised), so it is a
recoverable warning rather than a fatal failure. -/
theorem C7_default_on_invalid :
    ConfigService.loadConfig .absent = ConfigService.getDefaultConfig ∧
    ConfigService.loadConfig .corrupt = ConfigService.getDefaultConfig ∧
    ConfigService.getDefaultConfig.budgetAllocation =
      { investments := 30, savings := 20, dailyExpenses := 50 } ∧
    ∀ c : AppConfig,
      c.budgetAllocation.investments + c.budgetAllocation.savings +
          c.budgetAllocation.dailyExpenses ≠ 100 →
        ConfigService.loadConfig (.content c) = ConfigService.getDefaultConfig := by
  refine ⟨rfl, rfl, rfl, ?_⟩
  intro c hc
  simp [ConfigService.loadConfig, hc]

/-- C7 (witness): stored percentages summing to 99 and to 101 are both
replaced by the default configuration. -/
theorem C7_default_on_invalid_witness :
    ConfigService.loadConfig (.content ⟨⟨30, 20, 49⟩, "1.0.0", "d"⟩) =
      ConfigService.getDefaultConfig ∧
    ConfigService.loadConfig (.content ⟨⟨30, 20, 51⟩, "1.0.0", "d"⟩) =
      ConfigService.getDefaultConfig :=
  ⟨C7_default_on_invalid.2.2.2 ⟨⟨30, 20, 49⟩, "1.0.0", "d"⟩ (by decide),
   C7_default_on_invalid.2.2.2 ⟨⟨30, 20, 51⟩, "1.0.0", "d"⟩ (by decide)⟩

/-- C10: a stored configuration whose percentages sum to exactly 100 is
returned by `loadConfig` unchanged, even when a percentage is negative;
per-percentage non-negativity is checked only by `validateAllocation`,
which is true exactly when all three values are ≥ 0 and sum to 100. -/
theorem C10_load_skips_nonneg_check :
    (∀ c : AppConfig,
      c.budgetAllocation.investments + c.budgetAllocation.savings +
          c.budgetAllocation.dailyExpenses = 100 →
        ConfigService.loadConfig (.content c) = c) ∧
    ∀ a : BudgetAllocationConfig,
      ConfigService.validateAllocation a = true ↔
        (a.investments + a.savings + a.dailyExpenses = 100 ∧
          0 ≤ a.investments ∧ 0 ≤ a.savings ∧ 0 ≤ a.dailyExpenses) := by
  constructor
  · intro c hc
    simp [ConfigService.loadConfig, hc]
  · intro a
    simp [ConfigService.validateAllocation, and_assoc]

/-- C10 (witness): the config {-10, 60, 50} sums to 100, so `loadConfig`
returns it unchanged although its first percentage is negative — and
`validateAllocation` rejects exactly that config. -/
theorem C10_load_skips_nonneg_check_witness :
    ConfigService.loadConfig (.content ⟨⟨-10, 60, 50⟩, "1.0.0", "d"⟩) =
      ⟨⟨-10, 60, 50⟩, "1.0.0", "d"⟩ ∧
    ConfigService.validateAllocation ⟨-10, 60, 50⟩ = false := by
  constructor
  · exact C10_load_skips_nonneg_check.1 ⟨⟨-10, 60, 50⟩, "1.0.0", "d"⟩ (by decide)
  · decide

/-! ### Version resolution (`ReportService.nextVersionName` / `bumpVersionName`)

Both operations receive the two directory listings (`fs.readdir` of the
text and json storage areas) as explicit inputs.  The regular expression
`^<escaped base>-v(\d+)\.(txt|json)$` of the source matches a file name
exactly when it decomposes as the base (matched literally, thanks to
`escapeRegExp`), then "-v", then a non-empty run of digits, then exactly
".txt" or ".json"; `matchVersioned` is that decomposition. -/

/-- Candidate name `${base}-v${k}` (JS template interpolation). -/
def mkStem (base : String) (k : Nat) : String :=
  base ++ "-v" ++ String.mk (natToDec k)

/-- Semantics of matching a file name against
`^<escaped base>-v(\d+)\.(txt|json)$`: returns the captured version
number when the name matches. -/
def matchVersioned (base f : String) : Option Nat :=
  match dropStart? base.data f.data with
  | none => none
  | some rest =>
    match rest with
    | '-' :: 'v' :: tail =>
      let ds := tail.takeWhile Char.isDigit
      let rest2 := tail.drop ds.length
      if ds.isEmpty then none
      else if rest2 = ['.', 't', 'x', 't'] ∨ rest2 = ['.', 'j', 's', 'o', 'n'] then
        some (decVal ds)
      else none
    | _ => none

namespace ReportService

/-- Embedding of `ReportService.nextVersionName`: folds over the
concatenated listings tracking the maximal matched version (`maxV`,
initially 0) and returns `${base}-v${maxV + 1}`. -/
def nextVersionName (base : String) (textFiles jsonFiles : List String) : String :=
  let all := textFiles ++ jsonFiles
  let maxV := all.foldl
    (fun acc f =>
      match matchVersioned base f with
      | some v => Nat.max acc v
      | none => acc) 0
  mkStem base (maxV + 1)

/-- Semantics of `versionedName.match(/^(.*)-v(\d+)$/)`: with the greedy
`(.*)`, a match splits the name at the last "-v" that is followed only by
digits (at least one) running to the end of the string. -/
def parseVersioned (s : String) : Option (String × Nat) :=
  let rcs := s.data.reverse
  let rds := rcs.takeWhile Char.isDigit
  match rcs.drop rds.length with
  | 'v' :: '-' :: rest =>
    if rds.isEmpty then none
    else some (String.mk rest.reverse, decVal rds.reverse)
  | _ => none

/-- Model of `f.replace(/\.txt$/, "")` (case-sensitive suffix strip). -/
def stripSuffixExact (suf s : String) : String :=
  let sd := s.data
  let n := sd.length
  let m := suf.data.length
  if n ≥ m ∧ sd.drop (n - m) = suf.data then String.mk (sd.take (n - m)) else s

/-- Stems occupied in either storage area: text listings with ".txt"
stripped together with json listings with ".json" stripped (the source
builds a `Set` of these; a list with membership is equivalent). -/
def existingStems (textFiles jsonFiles : List String) : List String :=
  textFiles.map (stripSuffixExact ".txt") ++ jsonFiles.map (stripSuffixExact ".json")

/-- The probe loop of `bumpVersionName`: starting from version `v`, keep
incrementing while `${base}-v${v + 1}` is an occupied stem; returns the
first free version number.  The source's `while` loop is modelled with
fuel; `existing.length + 1` probes always suffice to reach a free stem. -/
def probeFree (existing : List String) (base : String) : Nat → Nat → Nat
  | 0, v => v + 1
  | Nat.succ fuel, v =>
    if mkStem base (v + 1) ∈ existing then probeFree existing base fuel (v + 1)
    else v + 1

/-- Embedding of `ReportService.bumpVersionName`. -/
def bumpVersionName (versionedName : String) (textFiles jsonFiles : List String) : String :=
  match parseVersioned versionedName with
  | none => nextVersionName versionedName textFiles jsonFiles
  | some (base, v) =>
    let existing := existingStems textFiles jsonFiles
    mkStem base (probeFree existing base (existing.length + 1) v)

end ReportService

/-- Matched version numbers of a listing. -/
def versionNums (base : String) (files : List String) : List Nat :=
  files.filterMap (matchVersioned base)

theorem foldl_matchMax (base : String) (l : List String) (acc : Nat) :
    l.foldl
      (fun acc f =>
        match matchVersioned base f with
        | some v => Nat.max acc v
        | none => acc) acc
      = Nat.max acc ((l.filterMap (matchVersioned base)).foldr Nat.max 0) := by
  induction l generalizing acc with
  | nil => simp
  | cons x xs ih =>
    simp only [List.foldl_cons, List.filterMap_cons]
    cases hm : matchVersioned base x with
    | none => simp [ih]
    | some v => simp [ih, Nat.max_assoc]

theorem mkStem_inj (base : String) : Function.Injective (mkStem base) := by
  intro a b h
  apply natToDec_injective
  have hd : (mkStem base a).data = (mkStem base b).data := by rw [h]
  simp only [mkStem, String.data_append] at hd
  exact List.append_cancel_left hd

theorem probeFree_spec (existing : List String) (base : String) :
    ∀ (fuel v : Nat),
      (∃ j, v < j ∧ j ≤ v + fuel ∧ mkStem base j ∉ existing) →
      v < ReportService.probeFree existing base fuel v ∧
        mkStem base (ReportService.probeFree existing base fuel v) ∉ existing ∧
        ∀ j, v < j → j < ReportService.probeFree existing base fuel v →
          mkStem base j ∈ existing := by
  intro fuel
  induction fuel with
  | zero =>
    intro v hex
    obtain ⟨j, hj1, hj2, _⟩ := hex
    omega
  | succ fuel ih =>
    intro v hex
    by_cases hc : mkStem base (v + 1) ∈ existing
    · simp only [ReportService.probeFree, if_pos hc]
      obtain ⟨j, hj1, hj2, hj3⟩ := hex
      have hne : j ≠ v + 1 := by
        intro he
        rw [he] at hj3
        exact hj3 hc
      obtain ⟨h1, h2, h3⟩ := ih (v + 1) ⟨j, by omega, by omega, hj3⟩
      refine ⟨by omega, h2, ?_⟩
      intro j' hj' hj''
      rcases Nat.lt_or_ge (v + 1) j' with hgt | hle
      · exact h3 j' hgt hj''
      · have : j' = v + 1 := by omega
        rw [this]
        exact hc
    · simp only [ReportService.probeFree, if_neg hc]
      exact ⟨by omega, hc, fun j h1 h2 => by omega⟩

theorem exists_free_slot (existing : List String) (base : String) (v : Nat) :
    ∃ j, v < j ∧ j ≤ v + (existing.length + 1) ∧ mkStem base j ∉ existing := by
  by_contra hall
  push_neg at hall
  have hnd : ((List.range (existing.length + 1)).map
      (fun i => mkStem base (v + 1 + i))).Nodup := by
    apply List.Nodup.map
    · intro a b hab
      have := mkStem_inj base hab
      omega
    · exact List.nodup_range _
  have hsub : ((List.range (existing.length + 1)).map
      (fun i => mkStem base (v + 1 + i))) ⊆ existing := by
    intro x hx
    simp only [List.mem_map, List.mem_range] at hx
    obtain ⟨i, hi, rfl⟩ := hx
    exact hall (v + 1 + i) (by omega) (by omega)
  have hle := (List.subperm_of_subset hnd hsub).length_le
  simp only [List.length_map, List.length_range] at hle
  omega

/-- C5: `nextVersionName base` scans both listings for names of the form
`base-v<N>.<txt|json>` with `base` matched literally and returns
`base-v<max(N) + 1>` — `base-v1` when no file matches; in particular it
yields "x-v1" on empty listings and "x-v2" when "x-v1.txt" exists, and a
base containing the regex special character '.' only matches itself
literally. -/
theorem C5_nextVersionName (base : String) (textFiles jsonFiles : List String) :
    (ReportService.nextVersionName base textFiles jsonFiles =
      mkStem base ((versionNums base (textFiles ++ jsonFiles)).foldr Nat.max 0 + 1)) ∧
    (versionNums base (textFiles ++ jsonFiles) = [] →
      ReportService.nextVersionName base textFiles jsonFiles = mkStem base 1) ∧
    ReportService.nextVersionName "x" [] [] = "x-v1" ∧
    ReportService.nextVersionName "x" ["x-v1.txt"] [] = "x-v2" ∧
    matchVersioned "a.b" "a.b-v7.txt" = some 7 ∧
    matchVersioned "a.b" "axb-v7.txt" = none := by
  refine ⟨?_, ?_, by decide, by decide, by decide, by decide⟩
  · simp only [ReportService.nextVersionName, versionNums, foldl_matchMax]
    simp
  · intro h
    simp only [ReportService.nextVersionName, foldl_matchMax]
    simp only [versionNums] at h
    rw [h]
    simp

/-- C5 (witness): instantiated at base "y" with empty listings, where no
file matches, the result is `mkStem "y" 1` = "y-v1". -/
theorem C5_nextVersionName_witness :
    ReportService.nextVersionName "y" [] [] = mkStem "y" 1 :=
  (C5_nextVersionName "y" [] []).2.1 (by decide)

/-- C6: when the input matches `<base>-v<N>` (at the greedy, i.e. last,
"-v<digits>" suffix) `bumpVersionName` returns the first candidate
`base-v<k>` with `k > N` whose stem is occupied in neither storage area,
all slots in between being occupied; when the input does not match, it
returns `nextVersionName` of the whole name.  Concretely,
`bumpVersionName "report-v2"` with "report-v3.json" present skips the
occupied slot and yields "report-v4". -/
theorem C6_bumpVersionName (versionedName : String) (textFiles jsonFiles : List String) :
    (ReportService.parseVersioned versionedName = none →
      ReportService.bumpVersionName versionedName textFiles jsonFiles =
        ReportService.nextVersionName versionedName textFiles jsonFiles) ∧
    (∀ base v, ReportService.parseVersioned versionedName = some (base, v) →
      ∃ k, v < k ∧
        ReportService.bumpVersionName versionedName textFiles jsonFiles = mkStem base k ∧
        mkStem base k ∉ ReportService.existingStems textFiles jsonFiles ∧
        ∀ j, v < j → j < k → mkStem base j ∈ ReportService.existingStems textFiles jsonFiles) ∧
    ReportService.bumpVersionName "report-v2" [] ["report-v3.json"] = "report-v4" := by
  refine ⟨?_, ?_, by decide⟩
  · intro h
    simp [ReportService.bumpVersionName, h]
  · intro base v h
    obtain ⟨h1, h2, h3⟩ :=
      probeFree_spec (ReportService.existingStems textFiles jsonFiles) base
        ((ReportService.existingStems textFiles jsonFiles).length + 1) v
        (exists_free_slot (ReportService.existingStems textFiles jsonFiles) base v)
    refine ⟨ReportService.probeFree (ReportService.existingStems textFiles jsonFiles) base
      ((ReportService.existingStems textFiles jsonFiles).length + 1) v, h1, ?_, h2, h3⟩
    simp [ReportService.bumpVersionName, h]

/-- C6 (witness): for the input "a-v1" (parsed as base "a", version 1)
with empty listings, the theorem yields a free successor version. -/
theorem C6_bumpVersionName_witness :
    ∃ k, 1 < k ∧
      ReportService.bumpVersionName "a-v1" [] [] = mkStem "a" k ∧
      mkStem "a" k ∉ ReportService.existingStems [] [] ∧
      ∀ j, 1 < j → j < k → mkStem "a" j ∈ ReportService.existingStems [] [] :=
  (C6_bumpVersionName "a-v1" [] []).2.1 "a" 1 (by decide)

/-! ### Structured serialization (`JSON.stringify` / `JSON.parse`)

The structured report file holds `JSON.stringify(accounting, null, 2)`.
JSON values are modelled at the level of their abstract syntax; string
rendering and re-parsing are the identity on this syntax for the finite
integer / string / array / object values the program stores, so the
file content is modelled as the `Json` tree itself.  Reading the file
back is `JSON.parse` followed by the unchecked cast
`as MonthlyAccounting`; the decoder below interprets the parsed tree as
the record shape `generateReport` writes, and is partial (`Option`) on
any other tree. -/

/-- Abstract JSON value. -/
inductive Json where
  | num (n : Int)
  | str (s : String)
  | arr (xs : List Json)
  | obj (fields : List (String × Json))

/-- Serialization of an expense (object field order as written by
`JSON.stringify` on the `ExpenseWithAmount` literals of the program). -/
def expenseToJson (e : ExpenseWithAmount) : Json :=
  .obj [("name", .str e.name), ("priority", .num e.priority),
        ("tags", .arr (e.tags.map .str)), ("amount", .num e.amount)]

/-- Serialization of an allocation breakdown. -/
def allocationToJson (a : BudgetAllocation) : Json :=
  .obj [("investments", .num a.investments), ("savings", .num a.savings),
        ("dailyExpenses", .num a.dailyExpenses),
        ("dailyExpensesRemaining", .num a.dailyExpensesRemaining)]

/-- Serialization of a monthly accounting record. -/
def accountingToJson (m : MonthlyAccounting) : Json :=
  .obj [("filename", .str m.filename), ("totalBudget", .num m.totalBudget),
        ("expenses", .arr (m.expenses.map expenseToJson)),
        ("allocation", allocationToJson m.allocation)]

/-- Reads back a list of JSON strings. -/
def strsOfJson? : List Json → Option (List String)
  | [] => some []
  | .str s :: js =>
    match strsOfJson? js with
    | some ss => some (s :: ss)
    | none => none
  | _ => none

/-- Reads back an expense from its serialized shape. -/
def expenseOfJson? : Json → Option ExpenseWithAmount
  | .obj [("name", .str name), ("priority", .num priority),
          ("tags", .arr tags), ("amount", .num amount)] =>
    match strsOfJson? tags with
    | some ts => some ⟨name, priority, ts, amount⟩
    | none => none
  | _ => none

/-- Reads back a list of expenses. -/
def expensesOfJson? : List Json → Option (List ExpenseWithAmount)
  | [] => some []
  | j :: js =>
    match expenseOfJson? j, expensesOfJson? js with
    | some e, some es => some (e :: es)
    | _, _ => none

/-- Reads back an allocation breakdown. -/
def allocationOfJson? : Json → Option BudgetAllocation
  | .obj [("investments", .num i), ("savings", .num s),
          ("dailyExpenses", .num d), ("dailyExpensesRemaining", .num r)] =>
    some ⟨i, s, d, r⟩
  | _ => none

/-- Reads back a monthly accounting record. -/
def accountingOfJson? : Json → Option MonthlyAccounting
  | .obj [("filename", .str filename), ("totalBudget", .num totalBudget),
          ("expenses", .arr expenses), ("allocation", allocation)] =>
    match expensesOfJson? expenses, allocationOfJson? allocation with
    | some es, some al => some ⟨filename, totalBudget, es, al⟩
    | _, _ => none
  | _ => none

theorem strsOfJson?_roundtrip (l : List String) :
    strsOfJson? (l.map Json.str) = some l := by
  induction l with
  | nil => rfl
  | cons x xs ih => simp [strsOfJson?, ih]

theorem expenseOfJson?_roundtrip (e : ExpenseWithAmount) :
    expenseOfJson? (expenseToJson e) = some e := by
  cases e
  simp [expenseToJson, expenseOfJson?, strsOfJson?_roundtrip]

theorem expensesOfJson?_roundtrip (l : List ExpenseWithAmount) :
    expensesOfJson? (l.map expenseToJson) = some l := by
  induction l with
  | nil => rfl
  | cons x xs ih => simp [expensesOfJson?, expenseOfJson?_roundtrip, ih]

theorem accountingOfJson?_roundtrip (m : MonthlyAccounting) :
    accountingOfJson? (accountingToJson m) = some m := by
  cases m with
  | mk filename totalBudget expenses allocation =>
    cases allocation
    simp [accountingToJson, accountingOfJson?, allocationToJson, allocationOfJson?,
      expensesOfJson?_roundtrip]

/-! ### File-system model and ReportService persistence -/

/-- Content of a persisted file: the structured JSON tree or the
human-readable text. -/
inductive FileContent where
  | jsonFile (j : Json)
  | textFile (s : String)

/-- File system: association of path to content, newest write first
(`fs.writeFile` overwrites; `List.lookup` returns the newest entry). -/
abbrev FS := List (String × FileContent)

/-- A successful `fs.writeFile`. -/
def writeFS (fs : FS) (path : String) (content : FileContent) : FS :=
  (path, content) :: fs

/-- A successful `fs.readFile`. -/
def readFS (fs : FS) (path : String) : Option FileContent :=
  fs.lookup path

namespace ReportService

/-- Directory constants of `ReportService`. -/
def textDir : String := "./reports/reports"

/-- Directory holding the structured copies. -/
def jsonDir : String := "./reports/json"

/-- Model of `Number.prototype.toLocaleString` grouping: inserts a comma
every three digits, right to left (input and output reversed). -/
def group3 : List Char → List Char
  | d1 :: d2 :: d3 :: d4 :: rest => d1 :: d2 :: d3 :: ',' :: group3 (d4 :: rest)
  | l => l

/-- Thousands-grouped decimal rendering of an integer. -/
def toGrouped (n : Int) : String :=
  match n with
  | .ofNat m => String.mk (group3 (natToDec m).reverse).reverse
  | .negSucc m => "-" ++ String.mk (group3 (natToDec (m + 1)).reverse).reverse

/-- Embedding of `ReportService.formatReport` (exact text layout,
including the hardcoded percentage labels of the source). -/
def formatReport (filename : String) (totalBudget : Int)
    (criticalExpenses discretionaryExpenses : List ExpenseWithAmount)
    (allocation : BudgetAllocation) : String :=
  "Monthly Accounting – " ++ filename ++ "\n" ++
  "Total budget: " ++ toGrouped totalBudget ++ " tomans\n\n" ++
  "Priority 1 & 2 (Critical / Essential)\n" ++
  "-------------------------------------\n" ++
  String.join (criticalExpenses.map
    (fun e => "• " ++ e.name ++ " – " ++ toGrouped e.amount ++ "\n")) ++
  "\n" ++
  "Priority 3–5 (Postponable / Comfort / Luxury)\n" ++
  "---------------------------------------------\n" ++
  String.join (discretionaryExpenses.map
    (fun e => "• " ++ e.name ++ " – " ++ toGrouped e.amount ++ "\n")) ++
  "\n" ++
  "Allocation Summary\n" ++
  "------------------\n" ++
  "Investments (30%): " ++ toGrouped allocation.investments ++ "\n" ++
  "Savings      (20%): " ++ toGrouped allocation.savings ++ "\n" ++
  "Daily use    (50%): " ++ toGrouped allocation.dailyExpenses ++
    "  (after other expenses → " ++ toGrouped allocation.dailyExpensesRemaining ++ ")\n"

/-- Embedding of `ReportService.generateReport`.  `okText` and `okJson`
give the environment's verdict on the two physical writes (true =
succeeds).  The text report is written first; a failed write throws, so
a text failure leaves the file system unchanged and skips the JSON
write, while a JSON failure happens after the text file is already on
disk.  The error, when either write fails, is rethrown to the caller
(second component `some ()`). -/
def generateReport (fs : FS) (okText okJson : Bool)
    (accounting : MonthlyAccounting) : FS × Option Unit :=
  let reportPath := textDir ++ "/" ++ accounting.filename ++ ".txt"
  let jsonPath := jsonDir ++ "/" ++ accounting.filename ++ ".json"
  let criticalExpenses := accounting.expenses.filter (fun e => e.priority ≤ 2)
  let discretionaryExpenses := accounting.expenses.filter (fun e => e.priority ≥ 3)
  let reportContent := formatReport accounting.filename accounting.totalBudget
    criticalExpenses discretionaryExpenses accounting.allocation
  if okText then
    let fs1 := writeFS fs reportPath (.textFile reportContent)
    if okJson then
      (writeFS fs1 jsonPath (.jsonFile (accountingToJson accounting)), none)
    else
      (fs1, some ())
  else
    (fs, some ())

/-- Embedding of `ReportService.parseAmount`: strips every non-digit
character and parses the rest as a decimal number (0 when no digit
remains, matching `parseInt(numeric || "0", 10)`). -/
def parseAmount (text : List Char) : Nat :=
  decVal (text.filter Char.isDigit)

/-- Model of `line.replace(/^[^:]*:\s*/, "")`. -/
def dropColon (l : List Char) : List Char :=
  if l.contains ':' then ((l.dropWhile (fun c => c != ':')).drop 1).dropWhile isSpaceChar
  else l

/-- Model of `line.replace(/^•\s*/, "")`: strips the bullet and the
following whitespace only when the (untrimmed) line starts with the
bullet. -/
def dropBullet (line : List Char) : List Char :=
  match line with
  | '•' :: rest => rest.dropWhile isSpaceChar
  | _ => line

/-- Lowercasing of a line (model of `toLowerCase` on the ASCII layout). -/
def lowerList (s : List Char) : List Char := s.map Char.toLower

/-- One iteration of the expense-collection loop of `parseTextReport`.
State: the current section (`some true` = critical, `some false` =
discretionary, `none` = before any header) and the expenses so far. -/
def parseStep (st : Option Bool × List ExpenseWithAmount) (line : List Char) :
    Option Bool × List ExpenseWithAmount :=
  if containsSeq ("Priority 1 & 2".data) line then (some true, st.2)
  else if containsSeq ("Priority 3–5".data) line ||
      containsSeq ("Priority 3-5".data) line then (some false, st.2)
  else if (dropStart? ['•'] (trimChars line)).isSome then
    match splitDash (dropBullet line) with
    | [namePart, amountPart] =>
      (st.1, st.2 ++ [⟨String.mk (trimChars namePart),
        (if st.1 = some true then 2 else 3), [],
        Int.ofNat (parseAmount amountPart)⟩])
    | _ => st
  else st

/-- Embedding of `ReportService.parseTextReport`. -/
def parseTextReport (filename : String) (content : String) : MonthlyAccounting :=
  let lines := splitLines content.data
  let totalBudget : Int :=
    match lines.find? (fun l => (dropStart? ("total budget:".data) (lowerList l)).isSome) with
    | some l => Int.ofNat (parseAmount (dropColon l))
    | none => 0
  let expenses := (lines.foldl parseStep (none, [])).2
  { filename := filename, totalBudget := totalBudget, expenses := expenses,
    allocation := ⟨0, 0, 0, 0⟩ }

/-- Case-insensitive test for a ".txt" ending
(the `/\.txt$/i` of `loadAccounting`). -/
def endsTxtCI (s : String) : Bool :=
  decide (4 ≤ s.data.length) &&
    ((s.data.drop (s.data.length - 4)).map Char.toLower == ['.', 't', 'x', 't'])

/-- Model of `reportTxtFilename.replace(/\.txt$/i, "")`. -/
def stripTxtCI (s : String) : String :=
  if endsTxtCI s then String.mk (s.data.take (s.data.length - 4)) else s

/-- The text-report fallback of `loadAccounting`. -/
def loadTextFallback (fs : FS) (txtPath base : String) : Option MonthlyAccounting :=
  match readFS fs txtPath with
  | some (.textFile s) => some (parseTextReport base s)
  | _ => none

/-- Embedding of `ReportService.loadAccounting`: strips a case-insensitive
".txt" ending from the identifier, prefers the structured copy, and falls
back to parsing the human-readable copy; `none` models the uncaught
rejection when the fallback read fails as well. -/
def loadAccounting (fs : FS) (reportTxtFilename : String) : Option MonthlyAccounting :=
  let base := stripTxtCI reportTxtFilename
  let jsonPath := jsonDir ++ "/" ++ base ++ ".json"
  let txtPath := textDir ++ "/" ++ base ++ ".txt"
  match readFS fs jsonPath with
  | some (.jsonFile j) =>
    match accountingOfJson? j with
    | some m => some m
    | none => loadTextFallback fs txtPath base
  | _ => loadTextFallback fs txtPath base

end ReportService

theorem stripTxtCI_of_not_ends {s : String} (h : ReportService.endsTxtCI s = false) :
    ReportService.stripTxtCI s = s := by
  simp [ReportService.stripTxtCI, h]

/-- Concrete record used for the persistence counterexamples. -/
def julyRecord : MonthlyAccounting :=
  { filename := "july", totalBudget := 1000, expenses := [],
    allocation := ⟨300, 200, 500, 500⟩ }

/-- C2 (counterexample): with the structured (JSON) write failing and the
human-readable write succeeding, `generateReport` does propagate the
failure — but the freshly written human-readable file for that version is
left on disk, so the operation partially commits. -/
theorem C2_counterexample :
    (ReportService.generateReport [] true false julyRecord).2 = some () ∧
    (readFS (ReportService.generateReport [] true false julyRecord).1
      "./reports/reports/july.txt").isSome = true := by
  constructor
  · rfl
  · rfl

/-- C2 (amended): any write failure propagates to the caller (the result
carries an error exactly when either physical write fails), and a failed
human-readable write leaves the file system unchanged (so no fresh
structured file); but a failed structured write leaves the already
written human-readable file in place — the text report is written first
and never rolled back. -/
theorem C2_write_propagation (fs : FS) (accounting : MonthlyAccounting)
    (okText okJson : Bool) :
    ((ReportService.generateReport fs okText okJson accounting).2 = none ↔
      okText = true ∧ okJson = true) ∧
    (okText = false → (ReportService.generateReport fs okText okJson accounting).1 = fs) ∧
    (okText = true → okJson = false →
      (ReportService.generateReport fs okText okJson accounting).1 =
        writeFS fs (ReportService.textDir ++ "/" ++ accounting.filename ++ ".txt")
          (.textFile (ReportService.formatReport accounting.filename accounting.totalBudget
            (accounting.expenses.filter (fun e => e.priority ≤ 2))
            (accounting.expenses.filter (fun e => e.priority ≥ 3))
            accounting.allocation))) := by
  cases okText <;> cases okJson <;>
    simp [ReportService.generateReport, writeFS]

/-- C2 (witness): a failed human-readable write with budget record
`julyRecord` leaves the empty file system unchanged. -/
theorem C2_write_propagation_witness :
    (ReportService.generateReport [] false true julyRecord).1 = ([] : FS) :=
  (C2_write_propagation [] julyRecord false true).2.1 rfl

/-- C3 (amended): for every record whose filename does not end in ".txt"
(case-insensitively), writing it and loading it back by its filename via
the structured path returns the record exactly, on all fields. -/
theorem C3_roundtrip (fs : FS) (m : MonthlyAccounting)
    (h : ReportService.endsTxtCI m.filename = false) :
    ReportService.loadAccounting (ReportService.generateReport fs true true m).1
      m.filename = some m := by
  simp only [ReportService.loadAccounting, ReportService.generateReport,
    stripTxtCI_of_not_ends h, writeFS, readFS]
  simp [List.lookup, accountingOfJson?_roundtrip]

/-- Concrete record used as the C3 round-trip witness. -/
def augustRecord : MonthlyAccounting :=
  { filename := "august-v1", totalBudget := 7, expenses := [],
    allocation := ⟨2, 1, 3, 3⟩ }

/-- C3 (witness): the round-trip instantiated on the concrete record
named "august-v1" over the empty file system. -/
theorem C3_roundtrip_witness :
    ReportService.loadAccounting
      (ReportService.generateReport [] true true augustRecord).1 "august-v1" =
      some augustRecord :=
  C3_roundtrip [] augustRecord (by decide)

/-- Record whose filename itself ends in ".txt". -/
def txtNamedRecord : MonthlyAccounting :=
  { filename := "a.txt", totalBudget := 5, expenses := [],
    allocation := ⟨0, 0, 0, 0⟩ }

/-- C3 (counterexample): for a record whose filename ends in ".txt", the
claim fails: `loadAccounting` strips the suffix and looks for "a.json" /
"a.txt" while `generateReport` wrote "a.txt.json" / "a.txt.txt", so
loading by the record's filename finds neither copy and fails instead of
returning the record. -/
theorem C3_counterexample :
    ReportService.loadAccounting
      (ReportService.generateReport [] true true txtNamedRecord).1 "a.txt" = none := by
  decide

/-! ### Text-report reconstruction (claim C8) -/

theorem parseStep_mem (st : Option Bool × List ExpenseWithAmount) (line : List Char)
    (e : ExpenseWithAmount) (he : e ∈ (ReportService.parseStep st line).2) :
    e ∈ st.2 ∨ (e.tags = [] ∧ (e.priority = 2 ∨ e.priority = 3)) := by
  unfold ReportService.parseStep at he
  by_cases h1 : containsSeq ("Priority 1 & 2".data) line = true
  · simp only [h1, if_true] at he
    exact Or.inl he
  · simp only [if_neg h1] at he
    by_cases h2 : (containsSeq ("Priority 3–5".data) line ||
        containsSeq ("Priority 3-5".data) line) = true
    · simp only [h2, if_true] at he
      exact Or.inl he
    · simp only [if_neg h2] at he
      by_cases h3 : (dropStart? ['•'] (trimChars line)).isSome = true
      · simp only [h3, if_true] at he
        cases hm : splitDash (ReportService.dropBullet line) with
        | nil => rw [hm] at he; exact Or.inl he
        | cons a rest =>
          cases rest with
          | nil => rw [hm] at he; exact Or.inl he
          | cons b rest2 =>
            cases rest2 with
            | nil =>
              rw [hm] at he
              rcases List.mem_append.mp he with h | h
              · exact Or.inl h
              · simp only [List.mem_singleton] at h
                subst h
                refine Or.inr ⟨rfl, ?_⟩
                by_cases hs : st.1 = some true
                · simp [hs]
                · simp [hs]
            | cons c rest3 => rw [hm] at he; exact Or.inl he
      · simp only [if_neg h3] at he
        exact Or.inl he

theorem foldl_parseStep_mem (lines : List (List Char)) :
    ∀ (st : Option Bool × List ExpenseWithAmount)
      (e : ExpenseWithAmount), e ∈ (lines.foldl ReportService.parseStep st).2 →
      e ∈ st.2 ∨ (e.tags = [] ∧ (e.priority = 2 ∨ e.priority = 3)) := by
  induction lines with
  | nil => intro st e he; exact Or.inl he
  | cons l ls ih =>
    intro st e he
    rcases ih (ReportService.parseStep st l) e he with h | h
    · exact parseStep_mem st l e h
    · exact Or.inr h

/-- Human-readable report with two critical and one discretionary bullet
lines, used as the reconstruction example. -/
def sampleReport : String :=
  "Monthly Accounting – demo\nTotal budget: 1,500 tomans\n\nPriority 1 & 2 (Critical / Essential)\n-------------------------------------\n• rent – 1,000\n• food – 200\n\nPriority 3–5 (Postponable / Comfort / Luxury)\n---------------------------------------------\n• fun – 100\n"

/-- C8: reconstruction from a human-readable report parses the total
budget from the "Total budget:" line by stripping non-digit characters
(and yields 0 when no such line exists), recognizes expense lines by the
bullet-and-dash pattern with inferred priority 2 in the critical section
and 3 in the discretionary section, reconstructs tags as empty, and sets
the allocation to all zeros; the concrete report with two critical and
one discretionary bullet lines yields priorities 2, 2, 3. -/
theorem C8_parseTextReport :
    (ReportService.parseTextReport "demo" sampleReport =
      { filename := "demo", totalBudget := 1500,
        expenses := [⟨"rent", 2, [], 1000⟩, ⟨"food", 2, [], 200⟩, ⟨"fun", 3, [], 100⟩],
        allocation := ⟨0, 0, 0, 0⟩ }) ∧
    (∀ fn content, (ReportService.parseTextReport fn content).allocation = ⟨0, 0, 0, 0⟩) ∧
    (∀ fn content, ∀ e ∈ (ReportService.parseTextReport fn content).expenses,
      e.tags = [] ∧ (e.priority = 2 ∨ e.priority = 3)) ∧
    (∀ fn content,
      (splitLines content.data).find?
        (fun l => (dropStart? ("total budget:".data) (ReportService.lowerList l)).isSome) =
          none →
      (ReportService.parseTextReport fn content).totalBudget = 0) := by
  refine ⟨by decide, fun fn content => rfl, ?_, ?_⟩
  · intro fn content e he
    rcases foldl_parseStep_mem (splitLines content.data) (none, []) e he with h | h
    · simp at h
    · exact h
  · intro fn content h
    simp [ReportService.parseTextReport, h]

/-- C8 (witness): the invariant parts applied at the concrete sample
report (for the expense "rent") and at a content with no budget line. -/
theorem C8_parseTextReport_witness :
    ((⟨"rent", 2, [], 1000⟩ : ExpenseWithAmount).tags = [] ∧
      ((⟨"rent", 2, [], 1000⟩ : ExpenseWithAmount).priority = 2 ∨
        (⟨"rent", 2, [], 1000⟩ : ExpenseWithAmount).priority = 3)) ∧
    (ReportService.parseTextReport "w" "no budget line").totalBudget = 0 := by
  constructor
  · exact C8_parseTextReport.2.2.1 "demo" sampleReport ⟨"rent", 2, [], 1000⟩ (by decide)
  · exact C8_parseTextReport.2.2.2 "w" "no budget line" (by decide)

end FinCLI
